import Mathlib

/-!
# Verification of the `risk-moron-tracker` detection pipeline

Shallow embedding of the Rust sources (`src/detector.rs`, `src/blacklist.rs`)
of the `risk-moron-tracker` repository, together with proofs and refutations
of the specified properties of the detection pipeline:
window discovery → capture → region cropping → OCR → text normalization →
fuzzy similarity scoring → result aggregation.

Numbers are modelled as `Nat`, with the places where Rust `u32` arithmetic can
underflow made explicit; fallible stages are modelled with `Except`/`Option`;
Rust `String` is modelled as Lean `String` (a list of characters), with
`str::len` modelled as the UTF-8 byte size, as in Rust, and per-character
lowercasing (`Char.toLower`, the basic-latin case map) standing in for
`str::to_lowercase`.
-/

namespace RiskMoronTracker

/-! ## Definitions -/

/-- Model of the fixed title constant that `normalize` strips: the local
`prefix = "General "` of detector.rs line 246. -/
def generalWord : List Char := "General ".data

/-- Model of detector.rs `normalize` (lines 245-254) on the character-list
level: strip the `"General "` title when the input starts with exactly it,
lowercase every character (`to_lowercase`), and drop all space characters
(`replace(" ", "")`). -/
def normalizeL (input : List Char) : List Char :=
  ((if generalWord.isPrefixOf input then
      input.drop generalWord.length
    else
      input).map Char.toLower).filter (fun c => c != ' ')

/-- Model of detector.rs `normalize` on Lean strings. -/
def normalize (s : String) : String := ⟨normalizeL s.data⟩

/-- A rectangle `(x, y, width, height)` in image coordinates, as passed to the
`image` crate's `crop`. -/
structure Rect where
  x : Nat
  y : Nat
  w : Nat
  h : Nat
deriving DecidableEq

/-- Outcome of `crop_player_cards_1920_1080` (detector.rs lines 144-185).
The Rust function computes `(image.width() - 1200) / 2` and
`(image.height() - 550) / 2` in `u32` arithmetic with no prior bounds check,
so on an image narrower than 1200 or shorter than 550 the subtraction
underflows: a panic in debug builds, wraparound (an out-of-bounds start
coordinate) in release builds.  `panic` models that underflow outcome; `ok`
carries the player-list rectangle (absolute coordinates) and the six
player-card rectangles (relative to the player-list image, in slot order
`row * 2 + col`). -/
inductive CropResult where
  | panic
  | ok (playerList : Rect) (cards : List Rect)
deriving DecidableEq

/-- The player-card grid of detector.rs lines 166-177: rows `0..3`, columns
`0..2`, each card `600 × 180` at `(col * 600, row * 180)` inside the
player-list image, appended in index order `row * 2 + col`. -/
def player_card_rects : List Rect :=
  (List.range 3).flatMap (fun row =>
    (List.range 2).map (fun col =>
      ⟨col * 600, row * 180, 600, 180⟩))

/-- Model of detector.rs `crop_player_cards_1920_1080` (lines 144-185) on the
geometry of an input image of the given width and height: center a
`1200 × 550` player-list box, then tile it with the `3 × 2` card grid. -/
def crop_player_cards_1920_1080 (width height : Nat) : CropResult :=
  if width < 1200 ∨ height < 550 then
    CropResult.panic
  else
    CropResult.ok ⟨(width - 1200) / 2, (height - 550) / 2, 1200, 550⟩ player_card_rects

/-- Does the rectangle contain the pixel `(px, py)`? -/
def containsPt (r : Rect) (px py : Nat) : Bool :=
  decide (r.x ≤ px ∧ px < r.x + r.w ∧ r.y ≤ py ∧ py < r.y + r.h)

/-- A blacklisted player, from blacklist.rs `Moron` (lines 41-47). -/
structure Moron where
  username : String
  reason : String
deriving DecidableEq

/-- The blacklist, from blacklist.rs `Blacklist` (lines 34-38). -/
structure Blacklist where
  morons : List Moron
deriving DecidableEq

/-- A scan result, from detector.rs `ScanInfo` (lines 44-54): the matched
blacklist username and the similarity (a `u8` percentage in the code,
modelled as `Nat`). -/
structure ScanInfo where
  username : String
  similarity : Nat
deriving DecidableEq

/-- Textbook Levenshtein edit distance with an explicit fuel parameter, so
that the recursion is structural and hence kernel-computable.  The fuel
strictly dominates the recursion depth whenever `xs.length + ys.length <
fuel`, so the fuel-exhausted base value is never reached from `lev`. -/
def levFuel : Nat → List Char → List Char → Nat
  | 0, xs, ys => xs.length + ys.length
  | _ + 1, [], ys => ys.length
  | _ + 1, x :: xs, [] => (x :: xs).length
  | fuel + 1, x :: xs, y :: ys =>
    if x = y then
      levFuel fuel xs ys
    else
      1 + min (levFuel fuel xs (y :: ys)) (min (levFuel fuel (x :: xs) ys) (levFuel fuel xs ys))

/-- Levenshtein edit distance between two character lists, the
edit-distance core of the spec's reference fuzzy-ratio formula. -/
def lev (xs ys : List Char) : Nat :=
  levFuel (xs.length + ys.length + 1) xs ys

/-- Modelled from the spec: `fuzzywuzzy::fuzz::ratio`, the fuzzy similarity
call at detector.rs line 95, whose implementation lives in the external
`fuzzywuzzy` crate and is not part of `src/`.  Spec §4.6 gives the reference
formula `100 * (1 - edit_distance(a,b) / max(len(a), len(b), 1))`, rounded to
the nearest integer. -/
def ratio (a b : String) : Nat :=
  let d := lev a.data b.data
  let m := max (max a.data.length b.data.length) 1
  (200 * (m - d) + m) / (2 * m)

/-- The results contributed by one raw detection: none when its normalized
text has byte length at most 1 (the `continue` at detector.rs line 88-90),
otherwise one `ScanInfo` per blacklist entry (lines 92-100). -/
def detectionResults (morons : List Moron) (detection_text : String) : List ScanInfo :=
  if (normalize detection_text).utf8ByteSize ≤ 1 then
    []
  else
    morons.map (fun moron =>
      ⟨moron.username, ratio (normalize detection_text) (normalize moron.username)⟩)

/-- One iteration of the aggregation loop of detector.rs lines 85-101:
skip detections whose normalized text has byte length `≤ 1`
(`detection_text_normalised.len() <= 1`), else push one `ScanInfo` per
blacklist entry, pairing the moron's original `username` with the fuzzy
ratio of the two normalized strings. -/
def scanLoopStep (morons : List Moron) (scans : List ScanInfo)
    (detection_text : String) : List ScanInfo :=
  if (normalize detection_text).utf8ByteSize ≤ 1 then
    scans
  else
    scans ++ morons.map (fun moron =>
      ⟨moron.username, ratio (normalize detection_text) (normalize moron.username)⟩)

/-- The aggregation stage of `scan` (detector.rs lines 84-105): fold the
loop body over all detections, starting from the empty result vector. -/
def aggregate (detections : List String) (morons : List Moron) : List ScanInfo :=
  detections.foldl (scanLoopStep morons) []

/-- The environment a run of `scan` (detector.rs lines 57-106) executes in:
the outcome of each effectful stage, in program order.  Paths are abstracted
to `Option Unit` (the code only threads them to the next effect), the OCR
engine to `Except String Unit`, and per-region OCR output to the list of
text lines the engine returns for region `i`. -/
structure ScanEnv where
  blacklistPath : Option Unit
  blacklistLoad : Except String Blacklist
  riskWindow : Option Unit
  scrshotPath : Option Unit
  scrshotWindow : Except String Unit
  cropPlayerCards : Except String Unit
  createOcrEngine : Except String Unit
  playerScrshotPath : Nat → Option Unit
  detectText : Nat → Except String (List String)

/-- Rust's `Option::ok_or` followed by `?`: an absent value becomes the given
error message. -/
def ofOption {α : Type} (o : Option α) (msg : String) : Except String α :=
  match o with
  | some a => Except.ok a
  | none => Except.error msg

/-- One iteration of the per-region OCR loop of detector.rs lines 74-82:
construct the player screenshot path, run OCR on it, extend the detections.
Each `match` is the desugaring of one Rust `?`. -/
def scanLoopBody (env : ScanEnv) (acc : List String) (i : Nat) :
    Except String (List String) :=
  match ofOption (env.playerScrshotPath i)
      "Unable to construct player screenshot path." with
  | Except.error e => Except.error e
  | Except.ok _ =>
    match env.detectText i with
    | Except.error e => Except.error e
    | Except.ok text => Except.ok (acc ++ text)

/-- Model of detector.rs `scan` (lines 57-106): the stages in program order,
each failure propagating immediately (each `match` is the desugaring of one
Rust `?` or `bail!`), ending with the aggregation of all detections against
the blacklist. -/
def scan (env : ScanEnv) : Except String (List ScanInfo) :=
  match ofOption env.blacklistPath "Unable to construct blacklist path." with
  | Except.error e => Except.error e
  | Except.ok _ =>
    match env.blacklistLoad with
    | Except.error e => Except.error ("Blacklist Error: " ++ e)
    | Except.ok blacklist =>
      match ofOption env.riskWindow "Unable to find RISK window." with
      | Except.error e => Except.error e
      | Except.ok _ =>
        match ofOption env.scrshotPath "Unable to construct screenshot path." with
        | Except.error e => Except.error e
        | Except.ok _ =>
          match env.scrshotWindow with
          | Except.error e => Except.error e
          | Except.ok _ =>
            match env.cropPlayerCards with
            | Except.error e => Except.error e
            | Except.ok _ =>
              match env.createOcrEngine with
              | Except.error e => Except.error e
              | Except.ok _ =>
                match (List.range 6).foldlM (scanLoopBody env) [] with
                | Except.error e => Except.error e
                | Except.ok detections =>
                  Except.ok (aggregate detections blacklist.morons)

/-- All stages of a `scan` run succeed: every fallible call in detector.rs
lines 57-82 returns a value. -/
def allStagesOk (env : ScanEnv) : Bool :=
  env.blacklistPath.isSome && env.blacklistLoad.isOk && env.riskWindow.isSome &&
    env.scrshotPath.isSome && env.scrshotWindow.isOk && env.cropPlayerCards.isOk &&
    env.createOcrEngine.isOk &&
    (List.range 6).all (fun i =>
      (env.playerScrshotPath i).isSome && (env.detectText i).isOk)

/-- A concrete environment in which OCR fails on region 3 and every other
stage succeeds. -/
def envOcrFails : ScanEnv where
  blacklistPath := some ()
  blacklistLoad := Except.ok ⟨[⟨"Bad Actor", "spam"⟩]⟩
  riskWindow := some ()
  scrshotPath := some ()
  scrshotWindow := Except.ok ()
  cropPlayerCards := Except.ok ()
  createOcrEngine := Except.ok ()
  playerScrshotPath := fun _ => some ()
  detectText := fun i => if i = 3 then Except.error "OcrFailed" else Except.ok []

/-! ## Characters and lowercasing

Auxiliary facts about `Char.toLower`, the per-character model of Rust's
`str::to_lowercase` used by `normalize`.
-/

/-- Conversion `Char.ofNat` on a scalar value below the surrogate range is
faithful. -/
theorem toNat_ofNat_of_lt {n : Nat} (h : n < 55296) : (Char.ofNat n).toNat = n := by
  rw [Char.ofNat, dif_pos (Or.inl h)]
  rfl

/-- Unfolding lemma for `Char.toLower`. -/
theorem toLower_eq (c : Char) :
    Char.toLower c =
      if c.toNat ≥ 65 ∧ c.toNat ≤ 90 then Char.ofNat (c.toNat + 32) else c := rfl

/-- The scalar value of `Char.toLower`. -/
theorem toLower_toNat (c : Char) :
    (Char.toLower c).toNat =
      if c.toNat ≥ 65 ∧ c.toNat ≤ 90 then c.toNat + 32 else c.toNat := by
  rw [toLower_eq]
  split
  · next h => exact toNat_ofNat_of_lt (by omega)
  · rfl

/-- Lowercasing never produces a basic-latin capital letter. -/
theorem toLower_not_upper (c : Char) :
    ¬(65 ≤ (Char.toLower c).toNat ∧ (Char.toLower c).toNat ≤ 90) := by
  have h := toLower_toNat c
  by_cases hc : c.toNat ≥ 65 ∧ c.toNat ≤ 90
  · rw [if_pos hc] at h
    omega
  · rw [if_neg hc] at h
    omega

/-- The map `Char.toLower` is idempotent. -/
theorem toLower_toLower (c : Char) :
    Char.toLower (Char.toLower c) = Char.toLower c := by
  rw [toLower_eq (Char.toLower c), if_neg]
  intro h
  exact toLower_not_upper c ⟨h.1, h.2⟩

/-- Lowercasing never yields the capital letter `G`. -/
theorem toLower_ne_G (c : Char) : Char.toLower c ≠ 'G' := by
  intro h
  have h2 := toLower_not_upper c
  rw [h] at h2
  exact h2 ⟨by decide, by decide⟩

/-! ## Text normalization: claims C4, C5, C10 -/

theorem generalWord_cons :
    generalWord = 'G' :: ['e', 'n', 'e', 'r', 'a', 'l', ' '] := by decide

/-- Every character surviving normalization is lowercase (fixed by
`Char.toLower`), is not `'G'`, and is not a space. -/
theorem mem_normalizeL {c : Char} {l : List Char} (h : c ∈ normalizeL l) :
    Char.toLower c = c ∧ c ≠ 'G' ∧ (c != ' ') = true := by
  unfold normalizeL at h
  have hsp := List.of_mem_filter h
  have h2 := List.mem_of_mem_filter h
  obtain ⟨x, _, rfl⟩ := List.mem_map.mp h2
  exact ⟨toLower_toLower x, toLower_ne_G x, hsp⟩

/-- A normalized string never starts with the `"General "` title again. -/
theorem generalWord_not_isPrefixOf_normalizeL (l : List Char) :
    generalWord.isPrefixOf (normalizeL l) = false := by
  cases hnl : normalizeL l with
  | nil => rw [generalWord_cons]; rfl
  | cons c cs =>
    have hc : c ∈ normalizeL l := by rw [hnl]; exact List.mem_cons_self _ _
    have hG : c ≠ 'G' := (mem_normalizeL hc).2.1
    rw [generalWord_cons]
    show (('G' == c) && _) = false
    rw [beq_eq_false_iff_ne.mpr (Ne.symm hG)]
    rfl

/-- Mapping a function that fixes every element of a list is the identity. -/
theorem map_eq_self_of_mem {α : Type} {f : α → α} :
    ∀ {l : List α}, (∀ a ∈ l, f a = a) → l.map f = l
  | [], _ => rfl
  | a :: l, h => by
    rw [List.map_cons, h a (List.mem_cons_self a l),
      map_eq_self_of_mem (fun b hb => h b (List.mem_cons_of_mem a hb))]

theorem map_toLower_normalizeL (l : List Char) :
    (normalizeL l).map Char.toLower = normalizeL l :=
  map_eq_self_of_mem (fun c hc => (mem_normalizeL hc).1)

theorem filter_space_normalizeL (l : List Char) :
    (normalizeL l).filter (fun c => c != ' ') = normalizeL l := by
  apply List.filter_eq_self.mpr
  intro c hc
  exact (mem_normalizeL hc).2.2

/-- Unfolding lemma for `normalizeL`. -/
theorem normalizeL_def (input : List Char) :
    normalizeL input =
      ((if generalWord.isPrefixOf input then
          input.drop generalWord.length
        else
          input).map Char.toLower).filter (fun c => c != ' ') := rfl

/-- Idempotence of normalization on character lists. -/
theorem normalizeL_idem (l : List Char) : normalizeL (normalizeL l) = normalizeL l := by
  rw [normalizeL_def (normalizeL l), generalWord_not_isPrefixOf_normalizeL l]
  simp only [Bool.false_eq_true, if_false]
  rw [map_toLower_normalizeL, filter_space_normalizeL]

/-- Claim C4: the text-normalization function is idempotent:
for every string `s`, `normalize (normalize s) = normalize s`. -/
theorem normalize_idem (s : String) : normalize (normalize s) = normalize s :=
  congrArg String.mk (normalizeL_idem s.data)

/-- Claim C5: normalization strips the fixed `"General "` title only when the
input begins with exactly that text, then lowercases and removes all spaces:
`normalize "General Smith" = normalize "smith"`, while
`normalize "GeneralissimoX" ≠ normalize "issimox"`. -/
theorem normalize_title_rule :
    normalize "General Smith" = normalize "smith" ∧
      normalize "GeneralissimoX" ≠ normalize "issimox" := by
  constructor
  · decide
  · decide

/-- A string starting with the lowercase-g `"general "` is not stripped
(the `starts_with` check is against the capitalized `"General "`), so its
normalization is `"general"` followed by the normalized tail. -/
theorem normalizeL_lowercase_general (rest : List Char) :
    normalizeL ("general ".data ++ rest) =
      "general".data ++ (rest.map Char.toLower).filter (fun c => c != ' ') := by
  rw [normalizeL_def]
  have hnp : generalWord.isPrefixOf ("general ".data ++ rest) = false := by
    rw [generalWord_cons, show "general ".data = 'g' :: "eneral ".data from rfl,
      List.cons_append]
    show (('G' == 'g') && _) = false
    rw [show ('G' == 'g') = false from by decide, Bool.false_and]
  rw [hnp]
  simp only [Bool.false_eq_true, if_false]
  rw [List.map_append, List.filter_append,
    show ("general ".data.map Char.toLower).filter (fun c => c != ' ') =
      "general".data from by decide]

/-- Claim C10: the title-stripping step is case-sensitive, happens before
lowercasing, and strips at most one occurrence: for every string `s` that
begins with the lowercase-g `"general "` rather than `"General "`, nothing
is stripped and `normalize s` retains the leading word `"general"` — e.g.
`normalize "general Smith" = "generalsmith"` — and
`normalize "General General X" = "generalx"` (only the first occurrence of
the capitalized title is stripped). -/
theorem normalize_title_case_sensitive_once :
    (∀ s : String, "general ".data.isPrefixOf s.data = true →
        "general".data.isPrefixOf (normalize s).data = true) ∧
      normalize "general Smith" = "generalsmith" ∧
      normalize "General General X" = "generalx" := by
  refine ⟨?_, by decide, by decide⟩
  intro s hp
  obtain ⟨rest, hrest⟩ := List.isPrefixOf_iff_prefix.mp hp
  rw [List.isPrefixOf_iff_prefix,
    show (normalize s).data = normalizeL s.data from rfl, ← hrest,
    normalizeL_lowercase_general]
  exact List.prefix_append _ _

/-- Witness: the string `"general Smith"` begins with `"general "`, and its
normalization retains the leading word `"general"`. -/
theorem normalize_title_case_sensitive_once_witness :
    "general ".data.isPrefixOf "general Smith".data = true ∧
      "general".data.isPrefixOf (normalize "general Smith").data = true :=
  ⟨by decide, normalize_title_case_sensitive_once.1 "general Smith" (by decide)⟩

/-! ## Region cropping: claims C1 and C2 -/

/-- The six player-card rectangles, written out in slot order. -/
theorem player_card_rects_eq :
    player_card_rects =
      [⟨0, 0, 600, 180⟩, ⟨600, 0, 600, 180⟩, ⟨0, 180, 600, 180⟩,
        ⟨600, 180, 600, 180⟩, ⟨0, 360, 600, 180⟩, ⟨600, 360, 600, 180⟩] := by decide

/-- Counterexample to claim C1: on an 800-pixel-wide capture the cropper does
not fail with a `LayoutError` — the `u32` start-coordinate computation
`(image.width() - 1200) / 2` underflows before any bounds check, which is a
panic (debug builds) or a wrapped out-of-bounds coordinate (release builds). -/
theorem crop_small_image_panic_cex :
    crop_player_cards_1920_1080 800 1080 = CropResult.panic := by decide

/-- Claim C1 (amended): `crop_player_cards_1920_1080` performs no bounds
check at all; for every capture narrower than the 1200-pixel list-box width
or shorter than its 550-pixel height, the start-coordinate subtraction
underflows `u32` arithmetic (panic in debug builds, wraparound in release
builds) — no `LayoutError` value exists in the code. -/
theorem crop_small_image_underflows (w h : Nat) (hwh : w < 1200 ∨ h < 550) :
    crop_player_cards_1920_1080 w h = CropResult.panic := by
  unfold crop_player_cards_1920_1080
  rw [if_pos hwh]

/-- Witness: a 1920 × 300 capture makes the cropper underflow. -/
theorem crop_small_image_underflows_witness :
    (1920 < 1200 ∨ 300 < 550) ∧
      crop_player_cards_1920_1080 1920 300 = CropResult.panic :=
  ⟨Or.inr (by decide), crop_small_image_underflows 1920 300 (Or.inr (by decide))⟩

/-- Counterexample to claim C2: the six card regions do not cover the
1200 × 550 list box — the pixel `(0, 549)` lies inside the list box but in
none of the six cards, and the total card area is `648000 ≠ 1200 * 550`,
because three rows of height 180 span only 540 of the 550 rows. -/
theorem crop_grid_gap_cex :
    player_card_rects.countP (fun r => containsPt r 0 549) = 0 ∧
      (player_card_rects.map (fun r => r.w * r.h)).sum ≠ 1200 * 550 := by
  constructor
  · decide
  · decide

/-- Claim C2 (amended): at the reference resolution the cropper centres the
1200 × 550 list box at `(360, 265)` and tiles it with a 3 × 2 row-major grid
of 600 × 180 cards, slot 0 starting at `(0, 0)` and slot 5 at `(600, 360)`;
the six cards cover the top `1200 × 540` part of the list box exactly once
(no gaps, no overlaps), while the bottom 10-pixel strip `540 ≤ y < 550` of
the list box is covered by no card. -/
theorem crop_grid_partition :
    crop_player_cards_1920_1080 1920 1080 =
        CropResult.ok ⟨360, 265, 1200, 550⟩ player_card_rects ∧
      player_card_rects =
        [⟨0, 0, 600, 180⟩, ⟨600, 0, 600, 180⟩, ⟨0, 180, 600, 180⟩,
          ⟨600, 180, 600, 180⟩, ⟨0, 360, 600, 180⟩, ⟨600, 360, 600, 180⟩] ∧
      (∀ px py, px < 1200 → py < 540 →
        player_card_rects.countP (fun r => containsPt r px py) = 1) ∧
      (∀ px py, px < 1200 → 540 ≤ py → py < 550 →
        player_card_rects.countP (fun r => containsPt r px py) = 0) := by
  refine ⟨by decide, player_card_rects_eq, ?_, ?_⟩
  · intro px py hx hy
    rw [player_card_rects_eq]
    simp only [List.countP_cons, List.countP_nil, containsPt, decide_eq_true_eq]
    split_ifs <;> omega
  · intro px py hx hy1 hy2
    rw [player_card_rects_eq]
    simp only [List.countP_cons, List.countP_nil, containsPt, decide_eq_true_eq]
    split_ifs <;> omega

/-- Witness: pixel `(700, 200)` lies in exactly one card (slot 3), and pixel
`(0, 545)` in the bottom strip lies in none. -/
theorem crop_grid_partition_witness :
    player_card_rects.countP (fun r => containsPt r 700 200) = 1 ∧
      player_card_rects.countP (fun r => containsPt r 0 545) = 0 :=
  ⟨crop_grid_partition.2.2.1 700 200 (by decide) (by decide),
    crop_grid_partition.2.2.2 0 545 (by decide) (by decide) (by decide)⟩

/-! ## Fuzzy similarity: claim C9 -/

theorem levFuel_self : ∀ (f : Nat) (l : List Char), l.length ≤ f → levFuel f l l = 0
  | 0, [], _ => rfl
  | 0, _ :: _, h => absurd h (by simp)
  | _ + 1, [], _ => rfl
  | f + 1, x :: xs, h => by
    show (if x = x then levFuel f xs xs else _) = 0
    rw [if_pos rfl]
    exact levFuel_self f xs (by simp at h; omega)

/-- The edit distance of a list to itself is zero. -/
theorem lev_self (l : List Char) : lev l l = 0 :=
  levFuel_self _ l (by omega)

/-- Unfolding lemma for `ratio`. -/
theorem ratio_unfold (a b : String) :
    ratio a b =
      (200 * (max (max a.data.length b.data.length) 1 - lev a.data b.data) +
          max (max a.data.length b.data.length) 1) /
        (2 * max (max a.data.length b.data.length) 1) := rfl

/-- The fuzzy ratio never exceeds 100. -/
theorem ratio_le_hundred (a b : String) : ratio a b ≤ 100 := by
  rw [ratio_unfold]
  have hm : 1 ≤ max (max a.data.length b.data.length) 1 := le_max_right _ _
  set m := max (max a.data.length b.data.length) 1 with hmdef
  have h1 : m - lev a.data b.data ≤ m := Nat.sub_le _ _
  apply Nat.lt_succ_iff.mp
  rw [Nat.div_lt_iff_lt_mul (by omega)]
  omega

/-- The fuzzy ratio of a string with itself is exactly 100. -/
theorem ratio_self_eq_hundred (k : String) : ratio k k = 100 := by
  rw [ratio_unfold, lev_self, Nat.sub_zero]
  have hm : 1 ≤ max (max k.data.length k.data.length) 1 := le_max_right _ _
  apply Nat.div_eq_of_lt_le <;> omega

/-- Claim C9: the fuzzy similarity function returns a value in `[0, 100]`
for every pair of inputs (the lower bound holds by the `Nat` codomain), and
returns exactly 100 on two copies of the same non-empty normalized string. -/
theorem ratio_bounds_and_identity :
    (∀ a b : String, ratio a b ≤ 100) ∧
      ∀ k : String, k ≠ "" → ratio k k = 100 :=
  ⟨fun a b => ratio_le_hundred a b, fun k _ => ratio_self_eq_hundred k⟩

/-- Witness: the bounds at `"abc"`/`"xyz"` and the identity at the non-empty
normalized key `"badactor"`. -/
theorem ratio_bounds_and_identity_witness :
    ratio "abc" "xyz" ≤ 100 ∧
      ("badactor" ≠ "" ∧ ratio "badactor" "badactor" = 100) :=
  ⟨ratio_bounds_and_identity.1 "abc" "xyz", by decide,
    ratio_bounds_and_identity.2 "badactor" (by decide)⟩

/-! ## Aggregation: claims C6, C7, C8 -/

theorem scanLoopStep_eq (ks : List Moron) (scans : List ScanInfo) (d : String) :
    scanLoopStep ks scans d = scans ++ detectionResults ks d := by
  unfold scanLoopStep detectionResults
  split
  · rw [List.append_nil]
  · rfl

theorem foldl_scanLoopStep (ks : List Moron) :
    ∀ (ds : List String) (acc : List ScanInfo),
      ds.foldl (scanLoopStep ks) acc = acc ++ ds.flatMap (detectionResults ks)
  | [], acc => by simp
  | d :: ds, acc => by
    rw [List.foldl_cons, scanLoopStep_eq, foldl_scanLoopStep ks ds, List.flatMap_cons,
      List.append_assoc]

/-- The imperative aggregation loop builds the flat map of the per-detection
contributions. -/
theorem aggregate_eq_flatMap (ds : List String) (ks : List Moron) :
    aggregate ds ks = ds.flatMap (detectionResults ks) := by
  rw [aggregate, foldl_scanLoopStep, List.nil_append]

/-- Claim C6: a detection whose normalized text has (UTF-8 byte) length at
most 1 contributes zero `ScanInfo` results, for every blacklist: removing it
from the detection list leaves the aggregate unchanged. -/
theorem short_detection_filtered (pre post : List String) (d : String)
    (ks : List Moron) (hd : (normalize d).utf8ByteSize ≤ 1) :
    aggregate (pre ++ d :: post) ks = aggregate (pre ++ post) ks := by
  rw [aggregate_eq_flatMap, aggregate_eq_flatMap, List.flatMap_append,
    List.flatMap_append, List.flatMap_cons]
  have h0 : detectionResults ks d = [] := by
    unfold detectionResults
    rw [if_pos hd]
  rw [h0, List.nil_append]

/-- Witness: against a one-entry blacklist, the detection `"X"` (normalized
to the single byte `"x"`) contributes nothing. -/
theorem short_detection_filtered_witness :
    (normalize "X").utf8ByteSize ≤ 1 ∧
      aggregate (["bob"] ++ "X" :: []) [⟨"Bob", "spam"⟩] =
        aggregate (["bob"] ++ []) [⟨"Bob", "spam"⟩] :=
  ⟨by decide, short_detection_filtered ["bob"] [] "X" [⟨"Bob", "spam"⟩] (by decide)⟩

theorem length_flatMap_detectionResults (ks : List Moron) :
    ∀ ds : List String,
      (ds.flatMap (detectionResults ks)).length =
        ds.countP (fun d => decide (1 < (normalize d).utf8ByteSize)) * ks.length
  | [] => by simp
  | d :: ds => by
    rw [List.flatMap_cons, List.length_append, length_flatMap_detectionResults ks ds,
      List.countP_cons]
    by_cases hs : (normalize d).utf8ByteSize ≤ 1
    · have h0 : detectionResults ks d = [] := by
        unfold detectionResults
        rw [if_pos hs]
      have h1 : decide (1 < (normalize d).utf8ByteSize) = false := by
        simp
        omega
      rw [h0, h1]
      simp
    · have h0 : detectionResults ks d =
          ks.map (fun moron =>
            ⟨moron.username, ratio (normalize d) (normalize moron.username)⟩) := by
        unfold detectionResults
        rw [if_neg hs]
      have h1 : decide (1 < (normalize d).utf8ByteSize) = true := by
        simp
        omega
      rw [h0, h1, List.length_map]
      simp [Nat.add_mul]
      omega

/-- Claim C7: aggregation is the full cross product: its size is the number
of surviving detections times the number of blacklist entries, with no
deduplication; in particular 2 surviving detections against 3 entries yield
exactly 6 results. -/
theorem aggregate_cross_product :
    (∀ (ds : List String) (ks : List Moron),
        (aggregate ds ks).length =
          ds.countP (fun d => decide (1 < (normalize d).utf8ByteSize)) * ks.length) ∧
      (aggregate ["alice", "bob"]
          [⟨"A1", "r"⟩, ⟨"B2", "r"⟩, ⟨"C3", "r"⟩]).length = 6 := by
  constructor
  · intro ds ks
    rw [aggregate_eq_flatMap, length_flatMap_detectionResults]
  · decide

/-- Claim C8: every aggregated result carries the `username` of some
blacklist entry — the entry's original display name, not the OCR text and
not the normalized key — and a similarity of at most 100 (at least 0 holds
by the `Nat` codomain). -/
theorem scan_info_fields (ds : List String) (ks : List Moron) (r : ScanInfo)
    (hr : r ∈ aggregate ds ks) :
    (∃ m ∈ ks, r.username = m.username) ∧ r.similarity ≤ 100 := by
  rw [aggregate_eq_flatMap] at hr
  obtain ⟨d, _, hrd⟩ := List.mem_flatMap.mp hr
  unfold detectionResults at hrd
  split at hrd
  · exact absurd hrd (List.not_mem_nil r)
  · obtain ⟨m, hm, rfl⟩ := List.mem_map.mp hrd
    exact ⟨⟨m, hm, rfl⟩, ratio_le_hundred _ _⟩

/-- Witness: the single result of scanning detection `"bob"` against the
one-entry blacklist `["Bob"]` carries the display name `"Bob"` and a
similarity at most 100. -/
theorem scan_info_fields_witness :
    (⟨"Bob", ratio (normalize "bob") (normalize "Bob")⟩ : ScanInfo) ∈
        aggregate ["bob"] [⟨"Bob", "spam"⟩] ∧
      (⟨"Bob", ratio (normalize "bob") (normalize "Bob")⟩ : ScanInfo).similarity ≤ 100 :=
  ⟨by decide,
    (scan_info_fields ["bob"] [⟨"Bob", "spam"⟩] _ (by decide)).2⟩

/-! ## The scan pipeline: claim C3 -/

/-- If one loop iteration succeeds, its two fallible calls succeeded. -/
theorem scanLoopBody_ok {env : ScanEnv} {acc : List String} {i : Nat}
    {res : List String} (h : scanLoopBody env acc i = Except.ok res) :
    (env.playerScrshotPath i).isSome = true ∧ (env.detectText i).isOk = true := by
  unfold scanLoopBody ofOption at h
  cases hp : env.playerScrshotPath i with
  | none => rw [hp] at h; exact absurd h (by simp)
  | some u =>
    rw [hp] at h
    cases ht : env.detectText i with
    | error e => rw [ht] at h; exact absurd h (by simp)
    | ok text => exact ⟨rfl, rfl⟩

/-- If the whole per-region loop succeeds, every iteration's calls
succeeded. -/
theorem foldlM_scanLoopBody_ok {env : ScanEnv} :
    ∀ (l : List Nat) (acc res : List String),
      l.foldlM (scanLoopBody env) acc = Except.ok res →
      ∀ i ∈ l, (env.playerScrshotPath i).isSome = true ∧ (env.detectText i).isOk = true
  | [], _, _, _, i, hi => absurd hi (List.not_mem_nil i)
  | j :: l, acc, res, h, i, hi => by
    rw [List.foldlM_cons] at h
    cases hb : scanLoopBody env acc j with
    | error e =>
      rw [hb] at h
      exact absurd h (by simp [Bind.bind, Except.bind])
    | ok acc2 =>
      rw [hb] at h
      have h2 : l.foldlM (scanLoopBody env) acc2 = Except.ok res := h
      rcases List.mem_cons.mp hi with rfl | hil
      · exact scanLoopBody_ok hb
      · exact foldlM_scanLoopBody_ok l acc2 res h2 i hil

/-- A successful scan implies every stage succeeded. -/
theorem scan_ok_all_stages {env : ScanEnv} {r : List ScanInfo}
    (h : scan env = Except.ok r) : allStagesOk env = true := by
  unfold scan ofOption at h
  cases h1 : env.blacklistPath with
  | none => rw [h1] at h; exact absurd h (by simp)
  | some u1 =>
  rw [h1] at h
  cases h2 : env.blacklistLoad with
  | error e => rw [h2] at h; exact absurd h (by simp)
  | ok blacklist =>
  rw [h2] at h
  cases h3 : env.riskWindow with
  | none => rw [h3] at h; exact absurd h (by simp)
  | some u3 =>
  rw [h3] at h
  cases h4 : env.scrshotPath with
  | none => rw [h4] at h; exact absurd h (by simp)
  | some u4 =>
  rw [h4] at h
  cases h5 : env.scrshotWindow with
  | error e => rw [h5] at h; exact absurd h (by simp)
  | ok u5 =>
  rw [h5] at h
  cases h6 : env.cropPlayerCards with
  | error e => rw [h6] at h; exact absurd h (by simp)
  | ok u6 =>
  rw [h6] at h
  cases h7 : env.createOcrEngine with
  | error e => rw [h7] at h; exact absurd h (by simp)
  | ok u7 =>
  rw [h7] at h
  cases h8 : (List.range 6).foldlM (scanLoopBody env) [] with
  | error e => rw [h8] at h; exact absurd h (by simp)
  | ok detections =>
  have hloop := foldlM_scanLoopBody_ok (List.range 6) [] detections h8
  unfold allStagesOk
  rw [h1, h2, h3, h4, h5, h6, h7]
  have hall : (List.range 6).all (fun i =>
      (env.playerScrshotPath i).isSome && (env.detectText i).isOk) = true := by
    rw [List.all_eq_true]
    intro i hi
    have hl := hloop i hi
    show ((env.playerScrshotPath i).isSome && (env.detectText i).isOk) = true
    rw [hl.1, hl.2]
    rfl
  rw [hall]
  rfl

/-- Claim C3: the scan is fail-fast with no partial-success mode: whenever
any stage of the pipeline fails (blacklist path or load, window lookup,
screenshot path or capture, crop, OCR-engine construction, or any per-region
path construction or OCR call), `scan` returns an error and no `ScanInfo`
results at all. -/
theorem scan_fail_fast (env : ScanEnv) (h : allStagesOk env = false) :
    (scan env).isOk = false := by
  cases hscan : scan env with
  | error e => rfl
  | ok r => rw [scan_ok_all_stages hscan] at h; exact absurd h (by simp)

/-- Witness: in the environment where OCR fails on region 3, the scan
produces an error and no results. -/
theorem scan_fail_fast_witness :
    allStagesOk envOcrFails = false ∧ (scan envOcrFails).isOk = false :=
  ⟨by decide, scan_fail_fast envOcrFails (by decide)⟩

end RiskMoronTracker
